import Mathlib

/-!
Verification development for the `awesome-bot` routing/dispatch kernel
(`src/lib.rs`): the pattern compiler (`modify_command`), the route registry
(`muxers : Vec<Muxer>`), the per-category dispatch handlers
(`handle_*_msg`, `handle_message`) and the registration surface
(`command`, `regex`, `photo_fn`, ...).

Modelling conventions:
* Rust `String`/`&str` values are modelled as `List Char` (`Str`): the
  source manipulates strings character-wise (`split_whitespace`,
  `starts_with`, `insert(0, c)`, `pop`), which maps directly onto list
  operations.
* Rust closures (handler functions) are side-effecting; dispatch is modelled
  as a trace semantics: every handler is identified by a `HandlerId` and a
  dispatch returns the ordered list of handler invocations together with the
  category-specific arguments each handler receives.  (All handlers also
  receive `&AwesomeBot` and `&Message`, which are the same for every
  invocation of one dispatch, so they are not recorded in the trace.)
* The `regex` crate is an external dependency; it is modelled by an
  executable pattern compiler (`Regex.new`) and matcher (`Pat.is_match`,
  `Pat.captures`) over the fragment of regex syntax this crate emits and
  exercises: literal characters, `.`, groups `(..)` and `(?:..)`,
  postfix `?`, `*`, `+`, alternation `|`, and `^` / `$` anchors at the two
  ends of the pattern.  Patterns outside this fragment (character classes,
  escapes, counted repetitions, inner anchors) are modelled as failing to
  compile.  Matching follows the crate's leftmost-first semantics.
-/

/-- Rust strings, modelled character-wise. -/
abbrev Str := List Char

/-- Convert a Lean string literal to the model's string type. -/
def str (s : String) : Str := s.data

/-- Rust `str::starts_with` (with a string pattern). -/
def strStartsWith (s p : Str) : Bool := p.isPrefixOf s

/-- Rust `str::ends_with` (with a string pattern). -/
def strEndsWith (s p : Str) : Bool := p.reverse.isPrefixOf s.reverse

/-- Helper for `splitWS`: `acc` holds the characters of the word currently
being scanned, in reverse order. -/
def splitWSAux : Str → Str → List Str
  | [], acc => if acc.isEmpty then [] else [acc.reverse]
  | c :: rest, acc =>
    if c.isWhitespace then
      if acc.isEmpty then splitWSAux rest []
      else acc.reverse :: splitWSAux rest []
    else splitWSAux rest (c :: acc)

/-- Rust `str::split_whitespace`: split on runs of whitespace, dropping
empty substrings. -/
def splitWS (s : Str) : List Str := splitWSAux s []

/-- Rust `Vec::<String>::connect(" ")` (a.k.a. `join(" ")`). -/
def connectSp : List Str → Str
  | [] => []
  | [w] => w
  | w :: ws => w ++ ' ' :: connectSp ws

/-- The word-rewriting stage of `modify_command` (lines 251-262 of
`lib.rs`): split the shorthand on whitespace; if there is a first word,
strip a trailing `$` off it, append the optional bot-username suffix
`(?:@username)?` and re-attach the stripped `$`. -/
def mc_rewriteWords (orig username : Str) : List Str :=
  match splitWS orig with
  | [] => []
  | comm :: rest =>
    let lastchar : Str := if strEndsWith comm (str "$") then str "$" else []
    let comm2 := if strEndsWith comm (str "$") then comm.dropLast else comm
    (comm2 ++ ['(', '?', ':', '@'] ++ username ++ [')', '?'] ++ lastchar) :: rest

/-- The joined post-transform string `ns` of `modify_command` (line 265 of
`lib.rs`), before the `^` / `/` / `$` fixups. -/
def mc_joined (orig username : Str) : Str :=
  connectSp (mc_rewriteWords orig username)

/-- `AwesomeBot::modify_command` (`lib.rs` lines 249-278): compile a command
shorthand into an anchored pattern string that also accepts an optional
`@username` suffix on the command word. -/
def modify_command (orig username : Str) : Str :=
  let ns0 := mc_joined orig username
  let ns1 :=
    if strStartsWith ns0 (str "^/") then ns0
    else
      let nsA := if strStartsWith ns0 (str "/") then ns0 else '/' :: ns0
      if strStartsWith orig (str "^") then nsA else '^' :: nsA
  if strEndsWith ns1 (str "$") then ns1 else ns1 ++ ['$']

/-- The embedding reproduces all `modify_command` outcomes asserted by the
repository's own tests (`src/test.rs`, `mt_*` and `test_complex_command`). -/
theorem mc_matches_repo_tests :
    modify_command (str "test") (str "usernamebot") = str "^/test(?:@usernamebot)?$" ∧
    modify_command (str "test$") (str "usernamebot") = str "^/test(?:@usernamebot)?$" ∧
    modify_command (str "/test") (str "usernamebot") = str "^/test(?:@usernamebot)?$" ∧
    modify_command (str "/test$") (str "usernamebot") = str "^/test(?:@usernamebot)?$" ∧
    modify_command (str "^/test") (str "usernamebot") = str "^/test(?:@usernamebot)?$" ∧
    modify_command (str "^/test$") (str "usernamebot") = str "^/test(?:@usernamebot)?$" ∧
    modify_command (str "echo (.+)") (str "rock") = str "^/echo(?:@rock)? (.+)$" := by
  decide

/-! ## Model of the `regex` crate (pattern compilation and matching)

The crate stores a compiled `Regex` in each text route and uses
`Regex::new`, `is_match`, and `captures` (`captures.iter()` yields one
`Option<&str>` per group, group 0 = whole match first).  The model below
implements these for the fragment described in the file header. -/

/-- Regular-expression ASTs the pattern compiler produces. -/
inductive RE where
  | eps
  | chr (c : Char)
  | dot
  | cat (a b : RE)
  | alt (a b : RE)
  | star (a : RE)
  | group (n : Nat) (a : RE)
deriving DecidableEq, Repr

/-- Capture assignments recorded during a match: `(group, start, stop)`
position triples, most recent first (a later iteration of a repeated group
overrides an earlier one). -/
abbrev Caps := List (Nat × Nat × Nat)

/-- One bounded pass of Kleene-star iteration: `f` matches one iteration
starting at a position, `starLoop` chains iterations that make strict
progress (the greedy, longer-first priority order of the crate), always
offering the empty iteration last.  `fuel` bounds the number of
iterations; every iteration consumes at least one character, so any fuel
`≥` the remaining input length is sufficient. -/
def starLoop (f : Nat → List (Nat × Caps)) : Nat → Nat → List (Nat × Caps)
  | 0, i => [(i, [])]
  | fuel + 1, i =>
    ((f i).filter (fun jc => i < jc.1)).flatMap
        (fun jc => (starLoop f fuel jc.1).map (fun kc => (kc.1, kc.2 ++ jc.2)))
      ++ [(i, [])]

/-- All ways a regex can match a prefix of `s.drop i`: the list of
`(end-position, captures)` pairs, in the crate's leftmost-first priority
order (alternation prefers the left branch, repetition is greedy). -/
def runFrom (s : Str) : RE → Nat → List (Nat × Caps)
  | .eps, i => [(i, [])]
  | .chr c, i =>
    match s[i]? with
    | some a => if a = c then [(i + 1, [])] else []
    | none => []
  | .dot, i =>
    match s[i]? with
    | some _ => [(i + 1, [])]
    | none => []
  | .cat a b, i =>
    (runFrom s a i).flatMap
      (fun jc => (runFrom s b jc.1).map (fun kc => (kc.1, kc.2 ++ jc.2)))
  | .alt a b, i => runFrom s a i ++ runFrom s b i
  | .star a, i => starLoop (fun j => runFrom s a j) (s.length + 1) i
  | .group n a, i =>
    (runFrom s a i).map (fun jc => (jc.1, (n, i, jc.1) :: jc.2))

/-- A compiled pattern: optional anchors at the two ends, the regex body,
and the number of capture groups. -/
structure Pat where
  anchorStart : Bool
  anchorEnd : Bool
  re : RE
  ngroups : Nat
deriving DecidableEq, Repr

/-- The substring of `s` between positions `i` and `j`. -/
def sliceStr (s : Str) (i j : Nat) : Str := (s.drop i).take (j - i)

/-- Try a match starting exactly at position `i`: the first result in
priority order whose end position satisfies the end anchor. -/
def execAt (p : Pat) (s : Str) (i : Nat) : Option (Nat × Caps) :=
  (runFrom s p.re i).find? (fun jc => !p.anchorEnd || jc.1 == s.length)

/-- Leftmost search: try each start position in order (only position 0 when
the pattern is start-anchored), as the crate's `find`/`captures` do. -/
def execSearch (p : Pat) (s : Str) : Option (Nat × Nat × Caps) :=
  if p.anchorStart then
    (execAt p s 0).map (fun jc => (0, jc))
  else
    (List.range (s.length + 1)).findSome?
      (fun i => (execAt p s i).map (fun jc => (i, jc)))

/-- Position range captured by group `n`, if it participated in the match
(the most recent assignment wins). -/
def lookupGroup (caps : Caps) (n : Nat) : Option (Nat × Nat) :=
  (caps.find? (fun t => t.1 == n)).map (fun t => t.2)

/-- `Regex::captures` followed by `Captures::iter()`: one entry per group,
group 0 (the whole match) first, `none` for a group that did not
participate. -/
def Pat.captures (p : Pat) (s : Str) : Option (List (Option Str)) :=
  match execSearch p s with
  | none => none
  | some (i, j, caps) =>
    some (some (sliceStr s i j) ::
      (List.range p.ngroups).map (fun k =>
        (lookupGroup caps (k + 1)).map (fun ab => sliceStr s ab.1 ab.2)))

/-- `Regex::is_match`: the search succeeds. -/
def Pat.is_match (p : Pat) (s : Str) : Bool := (p.captures s).isSome

/-- Fold the atoms of one alternative (accumulated in reverse) into a
concatenation. -/
def seqRE (rs : List RE) : RE := rs.reverse.foldr RE.cat RE.eps

/-- Fold the completed alternatives (in order) around the final one. -/
def altRE (rs : List RE) (last : RE) : RE :=
  match rs with
  | [] => last
  | a :: rest => RE.alt a (altRE rest last)

/-- Characters that are regex syntax outside the modelled fragment; a
pattern containing one fails to compile in the model. -/
def isBad (c : Char) : Bool :=
  c == '^' || c == '$' || c == '[' || c == ']' || c == '\\' ||
    c == Char.ofNat 123 || c == Char.ofNat 125

/-- One pending group context: its capture index (`none` for `(?:`), and
the alternatives and reversed atom sequence accumulated so far outside it. -/
abbrev Frame := Option Nat × List RE × List RE

/-- The pattern-body parser: processes the pattern character by character,
keeping a stack of open groups, the completed alternatives of the current
level, and the reversed atom sequence of the current alternative.  `g` is
the capture-group counter.  Returns the parsed regex and the number of
capture groups, or `none` on a syntax error. -/
def parseLoop : Str → List Frame → List RE → List RE → Nat → Option (RE × Nat)
  | [], [], alts, seq, g => some (altRE alts (seqRE seq), g)
  | [], _ :: _, _, _, _ => none
  | '(' :: '?' :: ':' :: rest, st, alts, seq, g =>
    parseLoop rest ((none, alts, seq) :: st) [] [] g
  | '(' :: rest, st, alts, seq, g =>
    parseLoop rest ((some (g + 1), alts, seq) :: st) [] [] (g + 1)
  | ')' :: _, [], _, _, _ => none
  | ')' :: rest, (kind, salts, sseq) :: st, alts, seq, g =>
    parseLoop rest st salts
      ((match kind with
        | some n => RE.group n (altRE alts (seqRE seq))
        | none => altRE alts (seqRE seq)) :: sseq) g
  | '|' :: rest, st, alts, seq, g =>
    parseLoop rest st (alts ++ [seqRE seq]) [] g
  | '?' :: rest, st, alts, r :: seq, g =>
    parseLoop rest st alts (RE.alt r RE.eps :: seq) g
  | '?' :: _, _, _, [], _ => none
  | '*' :: rest, st, alts, r :: seq, g =>
    parseLoop rest st alts (RE.star r :: seq) g
  | '*' :: _, _, _, [], _ => none
  | '+' :: rest, st, alts, r :: seq, g =>
    parseLoop rest st alts (RE.cat r (RE.star r) :: seq) g
  | '+' :: _, _, _, [], _ => none
  | '.' :: rest, st, alts, seq, g =>
    parseLoop rest st alts (RE.dot :: seq) g
  | c :: rest, st, alts, seq, g =>
    if isBad c then none else parseLoop rest st alts (RE.chr c :: seq) g

/-- `Regex::new`: strip a leading `^` and a trailing `$` into the two
anchor flags, then parse the body. -/
def Regex.new (pat : Str) : Option Pat :=
  let as1 : Bool × Str :=
    match pat with
    | '^' :: rest => (true, rest)
    | _ => (false, pat)
  let ae1 : Bool × Str :=
    if strEndsWith as1.2 (str "$") then (true, as1.2.dropLast) else (false, as1.2)
  match parseLoop ae1.2 [] [] [] 0 with
  | some (r, g) => some ⟨as1.1, ae1.1, r, g⟩
  | none => none

/-- The regex model reproduces the repository's regex-level tests
(`src/test.rs`, `rcmd_*`): the compiled command pattern accepts `/test` and
`/test@usernamebot` (each with a single full-match capture), and rejects
extensions; it also exercises leftmost-first search, greedy repetition,
non-participating capture groups, and rejection of malformed patterns. -/
theorem regex_model_matches_repo_tests :
    (Regex.new (str "^/test(?:@usernamebot)?$")).isSome = true ∧
    Regex.new (str "(") = none ∧
    Regex.new (str "abc)") = none ∧
    ((Regex.new (modify_command (str "test") (str "usernamebot"))).map
      (fun p => [p.is_match (str "/test"), p.is_match (str "/test@usernamebot"),
        p.is_match (str "/testx"), p.is_match (str "x/test"), p.is_match (str "/test@other")]))
      = some [true, true, false, false, false] ∧
    ((Regex.new (modify_command (str "test") (str "usernamebot"))).map
      (fun p => p.captures (str "/test"))) = some (some [some (str "/test")]) ∧
    ((Regex.new (modify_command (str "test") (str "usernamebot"))).map
      (fun p => p.captures (str "/test@usernamebot")))
      = some (some [some (str "/test@usernamebot")]) ∧
    ((Regex.new (modify_command (str "echo (.+)") (str "rock"))).map
      (fun p => p.captures (str "/echo hi there")))
      = some (some [some (str "/echo hi there"), some (str "hi there")]) ∧
    ((Regex.new (str "a(b*)(x)?c")).map (fun p => p.captures (str "zabbc")))
      = some (some [some (str "abbc"), some (str "bb"), none]) ∧
    ((Regex.new (str "a|ab")).map (fun p => p.captures (str "ab")))
      = some (some [some (str "a")]) :=
  ⟨by decide, by decide, by decide, by decide, by decide, by decide, by decide, by decide,
    by decide⟩

/-! ## Data model: telegram payload types, routes, the bot

The payload types come from the external `telegram_bot` crate; their
internals are irrelevant to routing, so each is modelled as a wrapper
around an identifying value, with exactly the fields dispatch touches
(`Message.chat`, `Message.msg`, `Location.latitude/longitude`). -/

/-- Stand-in for the crate's `Float` (f32) coordinates: dispatch only
passes them through, never computes with them. -/
structure TgFloat where
  val : Int
deriving DecidableEq, Repr

structure PhotoSize where
  id : Nat
deriving DecidableEq, Repr

structure Video where
  id : Nat
deriving DecidableEq, Repr

structure Document where
  id : Nat
deriving DecidableEq, Repr

structure Sticker where
  id : Nat
deriving DecidableEq, Repr

structure Audio where
  id : Nat
deriving DecidableEq, Repr

structure Voice where
  id : Nat
deriving DecidableEq, Repr

structure Contact where
  id : Nat
deriving DecidableEq, Repr

structure User where
  id : Nat
deriving DecidableEq, Repr

structure GroupChat where
  id : Nat
deriving DecidableEq, Repr

structure Location where
  latitude : TgFloat
  longitude : TgFloat
deriving DecidableEq, Repr

/-- The crate's `Chat`: either a private chat with a user or a group. -/
inductive Chat where
  | UserChat (u : User)
  | Group (g : GroupChat)
deriving DecidableEq, Repr

/-- The crate's `MessageType`: the tagged payload of an inbound message. -/
inductive MessageType where
  | Text (t : Str)
  | MAudio (a : Audio)
  | MVoice (v : Voice)
  | Photo (ps : List PhotoSize)
  | File (d : Document)
  | MSticker (s : Sticker)
  | MVideo (v : Video)
  | MContact (c : Contact)
  | MLocation (l : Location)
  | NewChatParticipant (u : User)
  | LeftChatParticipant (u : User)
  | NewChatTitle (t : Str)
  | NewChatPhoto (ps : List PhotoSize)
  | DeleteChatPhoto
  | GroupChatCreated
deriving DecidableEq, Repr

/-- The crate's `Message`: common fields plus the tagged payload. -/
structure Message where
  message_id : Nat
  fromUser : User
  date : Nat
  chat : Chat
  msg : MessageType
deriving DecidableEq, Repr

/-- `GeneralSound` (`lib.rs` lines 84-88): audio and voice union for the
`all_music_fn` handler. -/
inductive GeneralSound where
  | GAudio (a : Audio)
  | GVoice (v : Voice)
deriving DecidableEq, Repr

/-- Handlers are side-effecting Rust closures; in the trace model each is
identified by an id. -/
abbrev HandlerId := Nat

/-- The `Muxer` enum (`lib.rs` lines 91-111): one registered route. -/
inductive Muxer where
  | PatternMux (r : Pat) (f : HandlerId)
  | TextMux (r : Pat) (f : HandlerId)
  | PhotoMux (f : HandlerId)
  | VideoMux (f : HandlerId)
  | DocumentMux (f : HandlerId)
  | StickerMux (f : HandlerId)
  | AudioMux (f : HandlerId)
  | VoiceMux (f : HandlerId)
  | GeneralAudioMux (f : HandlerId)
  | ContactMux (f : HandlerId)
  | LocationMux (f : HandlerId)
  | NewParticipantMux (f : HandlerId)
  | LeftParticipantMux (f : HandlerId)
  | NewTitleMux (f : HandlerId)
  | NewChatPhotoMux (f : HandlerId)
  | DeleteChatPhotoMux (f : HandlerId)
  | GroupChatCreatedMux (f : HandlerId)
  | AnyMux (f : HandlerId)
deriving DecidableEq, Repr

/-- The category-specific arguments a handler receives on invocation
(besides `&AwesomeBot` and `&Message`, which every handler receives). -/
inductive HandlerArg where
  | patternArg (text : Str) (captures : List Str)
  | textArg (t : Str)
  | photoArg (ps : List PhotoSize)
  | videoArg (v : Video)
  | documentArg (d : Document)
  | stickerArg (s : Sticker)
  | audioArg (a : Audio)
  | voiceArg (v : Voice)
  | generalArg (g : GeneralSound)
  | contactArg (c : Contact)
  | locationArg (lat lng : TgFloat)
  | newParticipantArg (u : User)
  | leftParticipantArg (u : User)
  | newTitleArg (t : Str)
  | newChatPhotoArg (ps : List PhotoSize)
  | deleteChatPhotoArg (g : GroupChat)
  | groupChatCreatedArg (g : GroupChat)
  | anyArg
deriving DecidableEq, Repr

/-- One recorded handler invocation. -/
structure Invocation where
  f : HandlerId
  arg : HandlerArg
deriving DecidableEq, Repr

/-- `AwesomeBot` (`lib.rs` lines 152-159): the `bot : Api` network client
is out of scope; `id`, `username` and the route registry are modelled. -/
structure AwesomeBot where
  id : Int
  username : Str
  muxers : List Muxer
deriving DecidableEq, Repr

/-! ## Dispatch (`muxer_match!` and the `handle_*` functions) -/

/-- The `muxer_match!` macro (`lib.rs` lines 117-129): one pass over the
registry in registration order; an `AnyMux` route always fires; the
handler-specific arm `arm` decides what any other route contributes. -/
def muxer_match (bot : AwesomeBot) (arm : Muxer → List Invocation) : List Invocation :=
  bot.muxers.flatMap (fun m =>
    match m with
    | .AnyMux f => [⟨f, .anyArg⟩]
    | m' => arm m')

/-- `handle_text_msg` (`lib.rs` lines 283-308): every matching `TextMux`
fires with the raw text; every matching `PatternMux` fires with the raw
text and the capture groups, any non-participating group replaced by the
empty string. -/
def handle_text_msg (bot : AwesomeBot) (_msg : Message) (text : Str) : List Invocation :=
  muxer_match bot (fun m =>
    match m with
    | .TextMux r f => if r.is_match text then [⟨f, .textArg text⟩] else []
    | .PatternMux r f =>
      if r.is_match text then
        match (r.captures text).map (fun cs => cs.map (fun x => x.getD [])) with
        | some captures_vec => [⟨f, .patternArg text captures_vec⟩]
        | none => []
      else []
    | _ => [])

/-- `handle_image_msg` (`lib.rs` lines 310-315). -/
def handle_image_msg (bot : AwesomeBot) (_msg : Message) (photos : List PhotoSize) : List Invocation :=
  muxer_match bot (fun m =>
    match m with
    | .PhotoMux f => [⟨f, .photoArg photos⟩]
    | _ => [])

/-- `handle_video_msg` (`lib.rs` lines 317-322). -/
def handle_video_msg (bot : AwesomeBot) (_msg : Message) (video : Video) : List Invocation :=
  muxer_match bot (fun m =>
    match m with
    | .VideoMux f => [⟨f, .videoArg video⟩]
    | _ => [])

/-- `handle_document_msg` (`lib.rs` lines 324-329). -/
def handle_document_msg (bot : AwesomeBot) (_msg : Message) (document : Document) : List Invocation :=
  muxer_match bot (fun m =>
    match m with
    | .DocumentMux f => [⟨f, .documentArg document⟩]
    | _ => [])

/-- `handle_sticker_msg` (`lib.rs` lines 331-336). -/
def handle_sticker_msg (bot : AwesomeBot) (_msg : Message) (sticker : Sticker) : List Invocation :=
  muxer_match bot (fun m =>
    match m with
    | .StickerMux f => [⟨f, .stickerArg sticker⟩]
    | _ => [])

/-- `handle_audio_msg` (`lib.rs` lines 338-344): an audio event fires both
the plain audio routes and the audio/voice-union routes. -/
def handle_audio_msg (bot : AwesomeBot) (_msg : Message) (audio : Audio) : List Invocation :=
  muxer_match bot (fun m =>
    match m with
    | .AudioMux f => [⟨f, .audioArg audio⟩]
    | .GeneralAudioMux f => [⟨f, .generalArg (.GAudio audio)⟩]
    | _ => [])

/-- `handle_voice_msg` (`lib.rs` lines 346-352). -/
def handle_voice_msg (bot : AwesomeBot) (_msg : Message) (voice : Voice) : List Invocation :=
  muxer_match bot (fun m =>
    match m with
    | .VoiceMux f => [⟨f, .voiceArg voice⟩]
    | .GeneralAudioMux f => [⟨f, .generalArg (.GVoice voice)⟩]
    | _ => [])

/-- `handle_contact_msg` (`lib.rs` lines 354-359). -/
def handle_contact_msg (bot : AwesomeBot) (_msg : Message) (cont : Contact) : List Invocation :=
  muxer_match bot (fun m =>
    match m with
    | .ContactMux f => [⟨f, .contactArg cont⟩]
    | _ => [])

/-- `handle_location_msg` (`lib.rs` lines 361-366). -/
def handle_location_msg (bot : AwesomeBot) (_msg : Message) (f1 f2 : TgFloat) : List Invocation :=
  muxer_match bot (fun m =>
    match m with
    | .LocationMux f => [⟨f, .locationArg f1 f2⟩]
    | _ => [])

/-- `handle_new_chat_msg` (`lib.rs` lines 368-373). -/
def handle_new_chat_msg (bot : AwesomeBot) (_msg : Message) (newp : User) : List Invocation :=
  muxer_match bot (fun m =>
    match m with
    | .NewParticipantMux f => [⟨f, .newParticipantArg newp⟩]
    | _ => [])

/-- `handle_left_part_msg` (`lib.rs` lines 375-380). -/
def handle_left_part_msg (bot : AwesomeBot) (_msg : Message) (user : User) : List Invocation :=
  muxer_match bot (fun m =>
    match m with
    | .LeftParticipantMux f => [⟨f, .leftParticipantArg user⟩]
    | _ => [])

/-- `handle_new_title_msg` (`lib.rs` lines 382-387). -/
def handle_new_title_msg (bot : AwesomeBot) (_msg : Message) (title : Str) : List Invocation :=
  muxer_match bot (fun m =>
    match m with
    | .NewTitleMux f => [⟨f, .newTitleArg title⟩]
    | _ => [])

/-- `handle_chat_photo_msg` (`lib.rs` lines 389-394). -/
def handle_chat_photo_msg (bot : AwesomeBot) (_msg : Message) (photos : List PhotoSize) : List Invocation :=
  muxer_match bot (fun m =>
    match m with
    | .NewChatPhotoMux f => [⟨f, .newChatPhotoArg photos⟩]
    | _ => [])

/-- `handle_delete_photo_msg` (`lib.rs` lines 396-401). -/
def handle_delete_photo_msg (bot : AwesomeBot) (_msg : Message) (group : GroupChat) : List Invocation :=
  muxer_match bot (fun m =>
    match m with
    | .DeleteChatPhotoMux f => [⟨f, .deleteChatPhotoArg group⟩]
    | _ => [])

/-- `handle_group_created_msg` (`lib.rs` lines 403-408). -/
def handle_group_created_msg (bot : AwesomeBot) (_msg : Message) (group : GroupChat) : List Invocation :=
  muxer_match bot (fun m =>
    match m with
    | .GroupChatCreatedMux f => [⟨f, .groupChatCreatedArg group⟩]
    | _ => [])

/-- `handle_message` (`lib.rs` lines 410-445): classify the message by its
payload tag and run the corresponding handler walk; the two group-chat
categories are guarded by the chat actually being a group. -/
def handle_message (bot : AwesomeBot) (message : Message) : List Invocation :=
  match message.msg with
  | .Text text => handle_text_msg bot message text
  | .MAudio audio => handle_audio_msg bot message audio
  | .MVoice voice => handle_voice_msg bot message voice
  | .Photo photos => handle_image_msg bot message photos
  | .File document => handle_document_msg bot message document
  | .MSticker sticker => handle_sticker_msg bot message sticker
  | .MVideo video => handle_video_msg bot message video
  | .MContact contact => handle_contact_msg bot message contact
  | .MLocation loc => handle_location_msg bot message loc.latitude loc.longitude
  | .NewChatParticipant user => handle_new_chat_msg bot message user
  | .LeftChatParticipant user => handle_left_part_msg bot message user
  | .NewChatTitle title => handle_new_title_msg bot message title
  | .NewChatPhoto photos => handle_chat_photo_msg bot message photos
  | .DeleteChatPhoto =>
    match message.chat with
    | .Group group => handle_delete_photo_msg bot message group
    | _ => []
  | .GroupChatCreated =>
    match message.chat with
    | .Group group => handle_group_created_msg bot message group
    | _ => []

/-! ## Registration surface (`add_muxer!` and the `*_fn` / command methods)

Rust's `&mut self` methods are modelled by state passing: each
registration takes the bot and returns the updated bot (the Rust methods
return `&mut AwesomeBot` for chaining; the model returns the bot itself,
unchanged when registration is dropped). -/

/-- The `add_muxer!` macro (`lib.rs` lines 136-147): wrap the handler and
push one new route at the end of the registry. -/
def add_muxer (bot : AwesomeBot) (m : Muxer) : AwesomeBot :=
  { bot with muxers := bot.muxers ++ [m] }

/-- `AwesomeBot::command` (`lib.rs` lines 468-478): compile the shorthand
via `modify_command`; on a valid pattern add a `PatternMux`, otherwise
silently return the bot unchanged. -/
def AwesomeBot.command (bot : AwesomeBot) (pattern : Str) (handler : HandlerId) : AwesomeBot :=
  let nr := modify_command pattern bot.username
  match Regex.new nr with
  | some r => add_muxer bot (.PatternMux r handler)
  | none => bot

/-- `AwesomeBot::simple_command` (`lib.rs` lines 483-493). -/
def AwesomeBot.simple_command (bot : AwesomeBot) (pattern : Str) (handler : HandlerId) : AwesomeBot :=
  let nr := modify_command pattern bot.username
  match Regex.new nr with
  | some r => add_muxer bot (.TextMux r handler)
  | none => bot

/-- `AwesomeBot::regex` (`lib.rs` lines 498-507): the pattern is used
verbatim. -/
def AwesomeBot.regex (bot : AwesomeBot) (pattern : Str) (handler : HandlerId) : AwesomeBot :=
  match Regex.new pattern with
  | some r => add_muxer bot (.PatternMux r handler)
  | none => bot

/-- `AwesomeBot::simple_regex` (`lib.rs` lines 512-521). -/
def AwesomeBot.simple_regex (bot : AwesomeBot) (pattern : Str) (handler : HandlerId) : AwesomeBot :=
  match Regex.new pattern with
  | some r => add_muxer bot (.TextMux r handler)
  | none => bot

/-- `AwesomeBot::any_fn` (`lib.rs` lines 529-533). -/
def AwesomeBot.any_fn (bot : AwesomeBot) (handler : HandlerId) : AwesomeBot :=
  add_muxer bot (.AnyMux handler)

/-- `AwesomeBot::photo_fn` (`lib.rs` lines 536-540). -/
def AwesomeBot.photo_fn (bot : AwesomeBot) (handler : HandlerId) : AwesomeBot :=
  add_muxer bot (.PhotoMux handler)

/-- `AwesomeBot::video_fn` (`lib.rs` lines 543-547). -/
def AwesomeBot.video_fn (bot : AwesomeBot) (handler : HandlerId) : AwesomeBot :=
  add_muxer bot (.VideoMux handler)

/-- `AwesomeBot::document_fn` (`lib.rs` lines 550-554). -/
def AwesomeBot.document_fn (bot : AwesomeBot) (handler : HandlerId) : AwesomeBot :=
  add_muxer bot (.DocumentMux handler)

/-- `AwesomeBot::sticker_fn` (`lib.rs` lines 557-561). -/
def AwesomeBot.sticker_fn (bot : AwesomeBot) (handler : HandlerId) : AwesomeBot :=
  add_muxer bot (.StickerMux handler)

/-- `AwesomeBot::audio_fn` (`lib.rs` lines 564-568). -/
def AwesomeBot.audio_fn (bot : AwesomeBot) (handler : HandlerId) : AwesomeBot :=
  add_muxer bot (.AudioMux handler)

/-- `AwesomeBot::voice_fn` (`lib.rs` lines 571-575). -/
def AwesomeBot.voice_fn (bot : AwesomeBot) (handler : HandlerId) : AwesomeBot :=
  add_muxer bot (.VoiceMux handler)

/-- `AwesomeBot::all_music_fn` (`lib.rs` lines 578-582). -/
def AwesomeBot.all_music_fn (bot : AwesomeBot) (handler : HandlerId) : AwesomeBot :=
  add_muxer bot (.GeneralAudioMux handler)

/-- `AwesomeBot::contact_fn` (`lib.rs` lines 585-589). -/
def AwesomeBot.contact_fn (bot : AwesomeBot) (handler : HandlerId) : AwesomeBot :=
  add_muxer bot (.ContactMux handler)

/-- `AwesomeBot::location_fn` (`lib.rs` lines 592-596). -/
def AwesomeBot.location_fn (bot : AwesomeBot) (handler : HandlerId) : AwesomeBot :=
  add_muxer bot (.LocationMux handler)

/-- `AwesomeBot::new_participant_fn` (`lib.rs` lines 599-603). -/
def AwesomeBot.new_participant_fn (bot : AwesomeBot) (handler : HandlerId) : AwesomeBot :=
  add_muxer bot (.NewParticipantMux handler)

/-- `AwesomeBot::left_participant_fn` (`lib.rs` lines 606-610). -/
def AwesomeBot.left_participant_fn (bot : AwesomeBot) (handler : HandlerId) : AwesomeBot :=
  add_muxer bot (.LeftParticipantMux handler)

/-- `AwesomeBot::new_title_fn` (`lib.rs` lines 613-617). -/
def AwesomeBot.new_title_fn (bot : AwesomeBot) (handler : HandlerId) : AwesomeBot :=
  add_muxer bot (.NewTitleMux handler)

/-- `AwesomeBot::new_chat_photo_fn` (`lib.rs` lines 620-624). -/
def AwesomeBot.new_chat_photo_fn (bot : AwesomeBot) (handler : HandlerId) : AwesomeBot :=
  add_muxer bot (.NewChatPhotoMux handler)

/-- `AwesomeBot::delete_chat_photo_fn` (`lib.rs` lines 627-631). -/
def AwesomeBot.delete_chat_photo_fn (bot : AwesomeBot) (handler : HandlerId) : AwesomeBot :=
  add_muxer bot (.DeleteChatPhotoMux handler)

/-- `AwesomeBot::group_chat_created_fn` (`lib.rs` lines 634-638). -/
def AwesomeBot.group_chat_created_fn (bot : AwesomeBot) (handler : HandlerId) : AwesomeBot :=
  add_muxer bot (.GroupChatCreatedMux handler)

/-- The observer invocations of a trace, in order. -/
def anyTrace (tr : List Invocation) : List HandlerId :=
  tr.filterMap (fun inv =>
    match inv.arg with
    | .anyArg => some inv.f
    | _ => none)

/-- The observer (`AnyMux`) routes of a registry, in registration order. -/
def anyRoutes (ms : List Muxer) : List HandlerId :=
  ms.filterMap (fun m =>
    match m with
    | .AnyMux f => some f
    | _ => none)

/-! ## Helper lemmas about the registry walk -/

/-- A route in the registry contributes its invocations to the walk. -/
theorem mem_muxer_match {bot : AwesomeBot} {arm : Muxer → List Invocation}
    {m : Muxer} {inv : Invocation} (hm : m ∈ bot.muxers)
    (h : inv ∈ (fun m => match m with
      | .AnyMux f => [Invocation.mk f .anyArg]
      | m' => arm m') m) :
    inv ∈ muxer_match bot arm :=
  List.mem_flatMap.mpr ⟨m, hm, h⟩

/-- The claim C3, stated and proved by evaluation. -/
theorem spec_C3 :
    modify_command (str "test") (str "usernamebot") = str "^/test(?:@usernamebot)?$" ∧
    modify_command (str "echo (.+)") (str "rock") = str "^/echo(?:@rock)? (.+)$" := by
  decide

/-- Claim C6: a registration call whose final pattern fails to compile is a
silent no-op — the bot (in particular its registry) is returned unchanged,
for each of the four pattern-taking registration methods. -/
theorem spec_C6 :
    ∀ (bot : AwesomeBot) (pattern : Str) (handler : HandlerId),
      (Regex.new (modify_command pattern bot.username) = none →
        bot.command pattern handler = bot ∧ bot.simple_command pattern handler = bot) ∧
      (Regex.new pattern = none →
        bot.regex pattern handler = bot ∧ bot.simple_regex pattern handler = bot) := by
  intro bot pattern handler
  constructor
  · intro h
    constructor
    · simp [AwesomeBot.command, h]
    · simp [AwesomeBot.simple_command, h]
  · intro h
    constructor
    · simp [AwesomeBot.regex, h]
    · simp [AwesomeBot.simple_regex, h]

/-- Witness for C6 at the concrete invalid pattern `"("`. -/
theorem spec_C6_witness :
    Regex.new (modify_command (str "(") (str "rock")) = none ∧
    Regex.new (str "(") = none ∧
    AwesomeBot.command ⟨7, str "rock", []⟩ (str "(") 1 = ⟨7, str "rock", []⟩ ∧
    AwesomeBot.regex ⟨7, str "rock", []⟩ (str "(") 1 = ⟨7, str "rock", []⟩ := by
  refine ⟨by decide, by decide, ?_, ?_⟩
  · exact ((spec_C6 ⟨7, str "rock", []⟩ (str "(") 1).1 (by decide)).1
  · exact ((spec_C6 ⟨7, str "rock", []⟩ (str "(") 1).2 (by decide)).1

/-- Claim C9: every successful registration call appends exactly one route
at the end of the registry, leaving the existing routes and their order
unchanged — for all twenty registration methods. -/
theorem spec_C9 :
    ∀ (bot : AwesomeBot) (pattern : Str) (h : HandlerId) (r : Pat),
      (Regex.new (modify_command pattern bot.username) = some r →
        (bot.command pattern h).muxers = bot.muxers ++ [.PatternMux r h] ∧
        (bot.simple_command pattern h).muxers = bot.muxers ++ [.TextMux r h]) ∧
      (Regex.new pattern = some r →
        (bot.regex pattern h).muxers = bot.muxers ++ [.PatternMux r h] ∧
        (bot.simple_regex pattern h).muxers = bot.muxers ++ [.TextMux r h]) ∧
      (bot.any_fn h).muxers = bot.muxers ++ [.AnyMux h] ∧
      (bot.photo_fn h).muxers = bot.muxers ++ [.PhotoMux h] ∧
      (bot.video_fn h).muxers = bot.muxers ++ [.VideoMux h] ∧
      (bot.document_fn h).muxers = bot.muxers ++ [.DocumentMux h] ∧
      (bot.sticker_fn h).muxers = bot.muxers ++ [.StickerMux h] ∧
      (bot.audio_fn h).muxers = bot.muxers ++ [.AudioMux h] ∧
      (bot.voice_fn h).muxers = bot.muxers ++ [.VoiceMux h] ∧
      (bot.all_music_fn h).muxers = bot.muxers ++ [.GeneralAudioMux h] ∧
      (bot.contact_fn h).muxers = bot.muxers ++ [.ContactMux h] ∧
      (bot.location_fn h).muxers = bot.muxers ++ [.LocationMux h] ∧
      (bot.new_participant_fn h).muxers = bot.muxers ++ [.NewParticipantMux h] ∧
      (bot.left_participant_fn h).muxers = bot.muxers ++ [.LeftParticipantMux h] ∧
      (bot.new_title_fn h).muxers = bot.muxers ++ [.NewTitleMux h] ∧
      (bot.new_chat_photo_fn h).muxers = bot.muxers ++ [.NewChatPhotoMux h] ∧
      (bot.delete_chat_photo_fn h).muxers = bot.muxers ++ [.DeleteChatPhotoMux h] ∧
      (bot.group_chat_created_fn h).muxers = bot.muxers ++ [.GroupChatCreatedMux h] := by
  intro bot pattern h r
  refine ⟨fun hr => ⟨?_, ?_⟩, fun hr => ⟨?_, ?_⟩, ?_, ?_, ?_, ?_, ?_, ?_, ?_, ?_, ?_, ?_,
    ?_, ?_, ?_, ?_, ?_, ?_⟩ <;>
    simp [AwesomeBot.command, AwesomeBot.simple_command, AwesomeBot.regex,
      AwesomeBot.simple_regex, AwesomeBot.any_fn, AwesomeBot.photo_fn, AwesomeBot.video_fn,
      AwesomeBot.document_fn, AwesomeBot.sticker_fn, AwesomeBot.audio_fn, AwesomeBot.voice_fn,
      AwesomeBot.all_music_fn, AwesomeBot.contact_fn, AwesomeBot.location_fn,
      AwesomeBot.new_participant_fn, AwesomeBot.left_participant_fn, AwesomeBot.new_title_fn,
      AwesomeBot.new_chat_photo_fn, AwesomeBot.delete_chat_photo_fn,
      AwesomeBot.group_chat_created_fn, add_muxer, *]

/-- Witness for C9 at a concrete bot and patterns: `"t"` compiles (via
`modify_command` with username `"u"`) and `"a"` compiles verbatim. -/
theorem spec_C9_witness :
    Regex.new (modify_command (str "t") (str "u")) =
      some ⟨true, true, .cat (.chr '/') (.cat (.chr 't')
        (.cat (.alt (.cat (.chr '@') (.cat (.chr 'u') .eps)) .eps) .eps)), 0⟩ ∧
    (AwesomeBot.command ⟨3, str "u", [.AnyMux 9]⟩ (str "t") 1).muxers =
      [.AnyMux 9] ++ [.PatternMux ⟨true, true, .cat (.chr '/') (.cat (.chr 't')
        (.cat (.alt (.cat (.chr '@') (.cat (.chr 'u') .eps)) .eps) .eps)), 0⟩ 1] ∧
    (AwesomeBot.photo_fn ⟨3, str "u", [.AnyMux 9]⟩ 2).muxers =
      [.AnyMux 9] ++ [.PhotoMux 2] := by
  refine ⟨by decide, ?_, ?_⟩
  · exact ((spec_C9 ⟨3, str "u", [.AnyMux 9]⟩ (str "t") 1
      ⟨true, true, .cat (.chr '/') (.cat (.chr 't')
        (.cat (.alt (.cat (.chr '@') (.cat (.chr 'u') .eps)) .eps) .eps)), 0⟩).1 (by decide)).1
  · exact (spec_C9 ⟨3, str "u", [.AnyMux 9]⟩ (str "t") 2
      ⟨true, true, .eps, 0⟩).2.2.2.1

/-- Claim C10: a `DeleteChatPhoto` or `GroupChatCreated` event whose chat
is not a group invokes no handler at all (not even Observer routes); the
group-payload walks run exactly when the chat is a group. -/
theorem spec_C10 :
    ∀ (bot : AwesomeBot) (msg : Message),
      ((msg.msg = .DeleteChatPhoto ∨ msg.msg = .GroupChatCreated) →
        (∀ g, msg.chat ≠ .Group g) → handle_message bot msg = []) ∧
      (∀ g, msg.chat = .Group g →
        (msg.msg = .DeleteChatPhoto →
          handle_message bot msg = handle_delete_photo_msg bot msg g) ∧
        (msg.msg = .GroupChatCreated →
          handle_message bot msg = handle_group_created_msg bot msg g)) := by
  intro bot msg
  constructor
  · rintro (hm | hm) hg <;>
    · cases hc : msg.chat with
      | Group g => exact absurd hc (hg g)
      | UserChat u => simp [handle_message, hm, hc]
  · intro g hc
    constructor <;> intro hm <;> simp [handle_message, hm, hc]

/-- Witness for C10: a `DeleteChatPhoto` event in a private chat, with an
Observer and a `delete_chat_photo_fn` route registered, dispatches nothing. -/
theorem spec_C10_witness :
    handle_message ⟨0, str "u", [.AnyMux 1, .DeleteChatPhotoMux 2]⟩
      ⟨10, ⟨4⟩, 0, .UserChat ⟨4⟩, .DeleteChatPhoto⟩ = [] :=
  (spec_C10 ⟨0, str "u", [.AnyMux 1, .DeleteChatPhotoMux 2]⟩
      ⟨10, ⟨4⟩, 0, .UserChat ⟨4⟩, .DeleteChatPhoto⟩).1 (Or.inl rfl) (fun g h => by simp at h)

/-- Claim C2: dispatching a text event invokes the handler of **every**
registered text/pattern route whose matcher matches the text — a fan-out,
not first-match-wins. -/
theorem spec_C2 :
    ∀ (bot : AwesomeBot) (msg : Message) (text : Str), msg.msg = .Text text →
      (∀ r f, Muxer.TextMux r f ∈ bot.muxers → r.is_match text = true →
        Invocation.mk f (.textArg text) ∈ handle_message bot msg) ∧
      (∀ r f, Muxer.PatternMux r f ∈ bot.muxers → r.is_match text = true →
        ∃ caps, Invocation.mk f (.patternArg text caps) ∈ handle_message bot msg) := by
  intro bot msg text hmsg
  have hdisp : handle_message bot msg = handle_text_msg bot msg text := by
    simp [handle_message, hmsg]
  rw [hdisp]
  constructor
  · intro r f hmem hmatch
    exact mem_muxer_match hmem (by simp [hmatch])
  · intro r f hmem hmatch
    obtain ⟨cs, hcs⟩ := Option.isSome_iff_exists.mp hmatch
    refine ⟨cs.map (fun x => x.getD []), mem_muxer_match hmem ?_⟩
    simp [Pat.is_match, hcs]

/-- Witness for C2: two text routes (handlers 1 and 2) whose matchers both
match `"Hello"`; dispatching `"Hello"` invokes both. -/
theorem spec_C2_witness :
    Invocation.mk 1 (.textArg (str "Hello")) ∈
      handle_message
        ⟨0, str "u", [.TextMux ⟨false, false, .cat (.chr 'H') .eps, 0⟩ 1,
          .TextMux ⟨false, false, .cat (.chr 'e') .eps, 0⟩ 2]⟩
        ⟨1, ⟨2⟩, 0, .UserChat ⟨2⟩, .Text (str "Hello")⟩ ∧
    Invocation.mk 2 (.textArg (str "Hello")) ∈
      handle_message
        ⟨0, str "u", [.TextMux ⟨false, false, .cat (.chr 'H') .eps, 0⟩ 1,
          .TextMux ⟨false, false, .cat (.chr 'e') .eps, 0⟩ 2]⟩
        ⟨1, ⟨2⟩, 0, .UserChat ⟨2⟩, .Text (str "Hello")⟩ := by
  constructor
  · exact (spec_C2 ⟨0, str "u", [.TextMux ⟨false, false, .cat (.chr 'H') .eps, 0⟩ 1,
        .TextMux ⟨false, false, .cat (.chr 'e') .eps, 0⟩ 2]⟩
      ⟨1, ⟨2⟩, 0, .UserChat ⟨2⟩, .Text (str "Hello")⟩ (str "Hello") rfl).1
      ⟨false, false, .cat (.chr 'H') .eps, 0⟩ 1 (by decide) (by decide)
  · exact (spec_C2 ⟨0, str "u", [.TextMux ⟨false, false, .cat (.chr 'H') .eps, 0⟩ 1,
        .TextMux ⟨false, false, .cat (.chr 'e') .eps, 0⟩ 2]⟩
      ⟨1, ⟨2⟩, 0, .UserChat ⟨2⟩, .Text (str "Hello")⟩ (str "Hello") rfl).1
      ⟨false, false, .cat (.chr 'e') .eps, 0⟩ 2 (by decide) (by decide)

/-- Claim C7: a matching `Pattern` route's handler is always invoked, and
receives the raw text together with the ordered capture-group list in which
every non-participating group is replaced by the empty string; the
invocation is never skipped because a group did not participate. -/
theorem spec_C7 :
    ∀ (bot : AwesomeBot) (msg : Message) (text : Str), msg.msg = .Text text →
      ∀ r f, Muxer.PatternMux r f ∈ bot.muxers → r.is_match text = true →
        ∃ ocs, r.captures text = some ocs ∧
          Invocation.mk f (.patternArg text (ocs.map (fun x => x.getD []))) ∈
            handle_message bot msg := by
  intro bot msg text hmsg r f hmem hmatch
  obtain ⟨cs, hcs⟩ := Option.isSome_iff_exists.mp hmatch
  have hdisp : handle_message bot msg = handle_text_msg bot msg text := by
    simp [handle_message, hmsg]
  rw [hdisp]
  exact ⟨cs, hcs, mem_muxer_match hmem (by simp [Pat.is_match, hcs])⟩

/-- Witness for C7: pattern `a(b)(x)?` on text `"ab"`: group 2 does not
participate and is passed as the empty string, group 1 as `"b"`. -/
theorem spec_C7_witness :
    ∃ ocs,
      Pat.captures ⟨false, false, .cat (.chr 'a') (.cat (.group 1 (.cat (.chr 'b') .eps))
        (.cat (.alt (.group 2 (.cat (.chr 'x') .eps)) .eps) .eps)), 2⟩ (str "ab") = some ocs ∧
      Invocation.mk 5 (.patternArg (str "ab") (ocs.map (fun x => x.getD []))) ∈
        handle_message
          ⟨0, str "u", [.PatternMux ⟨false, false, .cat (.chr 'a')
            (.cat (.group 1 (.cat (.chr 'b') .eps))
              (.cat (.alt (.group 2 (.cat (.chr 'x') .eps)) .eps) .eps)), 2⟩ 5]⟩
          ⟨1, ⟨2⟩, 0, .UserChat ⟨2⟩, .Text (str "ab")⟩ :=
  spec_C7 ⟨0, str "u", [.PatternMux ⟨false, false, .cat (.chr 'a')
      (.cat (.group 1 (.cat (.chr 'b') .eps))
        (.cat (.alt (.group 2 (.cat (.chr 'x') .eps)) .eps) .eps)), 2⟩ 5]⟩
    ⟨1, ⟨2⟩, 0, .UserChat ⟨2⟩, .Text (str "ab")⟩ (str "ab") rfl
    ⟨false, false, .cat (.chr 'a') (.cat (.group 1 (.cat (.chr 'b') .eps))
      (.cat (.alt (.group 2 (.cat (.chr 'x') .eps)) .eps) .eps)), 2⟩ 5 (by decide) (by decide)

/-- Claim C8: an audio event invokes every audio route with the `Audio`
payload and every `all_music_fn` route with the union value tagged audio;
symmetrically for voice events. -/
theorem spec_C8 :
    ∀ (bot : AwesomeBot) (msg : Message) (a : Audio) (v : Voice) (f : HandlerId),
      (msg.msg = .MAudio a →
        (Muxer.AudioMux f ∈ bot.muxers →
          Invocation.mk f (.audioArg a) ∈ handle_message bot msg) ∧
        (Muxer.GeneralAudioMux f ∈ bot.muxers →
          Invocation.mk f (.generalArg (.GAudio a)) ∈ handle_message bot msg)) ∧
      (msg.msg = .MVoice v →
        (Muxer.VoiceMux f ∈ bot.muxers →
          Invocation.mk f (.voiceArg v) ∈ handle_message bot msg) ∧
        (Muxer.GeneralAudioMux f ∈ bot.muxers →
          Invocation.mk f (.generalArg (.GVoice v)) ∈ handle_message bot msg)) := by
  intro bot msg a v f
  constructor
  · intro hmsg
    have hdisp : handle_message bot msg = handle_audio_msg bot msg a := by
      simp [handle_message, hmsg]
    rw [hdisp]
    exact ⟨fun hmem => mem_muxer_match hmem (by simp),
      fun hmem => mem_muxer_match hmem (by simp)⟩
  · intro hmsg
    have hdisp : handle_message bot msg = handle_voice_msg bot msg v := by
      simp [handle_message, hmsg]
    rw [hdisp]
    exact ⟨fun hmem => mem_muxer_match hmem (by simp),
      fun hmem => mem_muxer_match hmem (by simp)⟩

/-- Witness for C8: a registry with an audio route (1), a voice route (2)
and an `all_music_fn` route (3), exercised on an audio and a voice event. -/
theorem spec_C8_witness :
    Invocation.mk 1 (.audioArg ⟨6⟩) ∈
      handle_message ⟨0, str "u", [.AudioMux 1, .VoiceMux 2, .GeneralAudioMux 3]⟩
        ⟨1, ⟨2⟩, 0, .UserChat ⟨2⟩, .MAudio ⟨6⟩⟩ ∧
    Invocation.mk 3 (.generalArg (.GAudio ⟨6⟩)) ∈
      handle_message ⟨0, str "u", [.AudioMux 1, .VoiceMux 2, .GeneralAudioMux 3]⟩
        ⟨1, ⟨2⟩, 0, .UserChat ⟨2⟩, .MAudio ⟨6⟩⟩ ∧
    Invocation.mk 2 (.voiceArg ⟨7⟩) ∈
      handle_message ⟨0, str "u", [.AudioMux 1, .VoiceMux 2, .GeneralAudioMux 3]⟩
        ⟨1, ⟨2⟩, 0, .UserChat ⟨2⟩, .MVoice ⟨7⟩⟩ ∧
    Invocation.mk 3 (.generalArg (.GVoice ⟨7⟩)) ∈
      handle_message ⟨0, str "u", [.AudioMux 1, .VoiceMux 2, .GeneralAudioMux 3]⟩
        ⟨1, ⟨2⟩, 0, .UserChat ⟨2⟩, .MVoice ⟨7⟩⟩ :=
  ⟨((spec_C8 ⟨0, str "u", [.AudioMux 1, .VoiceMux 2, .GeneralAudioMux 3]⟩
      ⟨1, ⟨2⟩, 0, .UserChat ⟨2⟩, .MAudio ⟨6⟩⟩ ⟨6⟩ ⟨7⟩ 1).1 rfl).1 (by decide),
    ((spec_C8 ⟨0, str "u", [.AudioMux 1, .VoiceMux 2, .GeneralAudioMux 3]⟩
      ⟨1, ⟨2⟩, 0, .UserChat ⟨2⟩, .MAudio ⟨6⟩⟩ ⟨6⟩ ⟨7⟩ 3).1 rfl).2 (by decide),
    ((spec_C8 ⟨0, str "u", [.AudioMux 1, .VoiceMux 2, .GeneralAudioMux 3]⟩
      ⟨1, ⟨2⟩, 0, .UserChat ⟨2⟩, .MVoice ⟨7⟩⟩ ⟨6⟩ ⟨7⟩ 2).2 rfl).1 (by decide),
    ((spec_C8 ⟨0, str "u", [.AudioMux 1, .VoiceMux 2, .GeneralAudioMux 3]⟩
      ⟨1, ⟨2⟩, 0, .UserChat ⟨2⟩, .MVoice ⟨7⟩⟩ ⟨6⟩ ⟨7⟩ 3).2 rfl).2 (by decide)⟩

/-- An observer route always contributes its invocation to any walk. -/
theorem any_mem_muxer_match {bot : AwesomeBot} {arm : Muxer → List Invocation}
    {f : HandlerId} (hmem : Muxer.AnyMux f ∈ bot.muxers) :
    Invocation.mk f .anyArg ∈ muxer_match bot arm :=
  mem_muxer_match hmem (by simp)

/-- Counterexample to claim C1 as stated: with a photo route registered
before an Observer route, dispatching a photo event invokes the photo
handler (1) strictly before the Observer (2) — the Observer invocation is
not first, so its position does depend on registration order. -/
theorem spec_C1_counterexample :
    Muxer.AnyMux 2 ∈ (⟨0, str "u", [.PhotoMux 1, .AnyMux 2]⟩ : AwesomeBot).muxers ∧
    handle_message ⟨0, str "u", [.PhotoMux 1, .AnyMux 2]⟩
        ⟨1, ⟨2⟩, 0, .UserChat ⟨2⟩, .Photo [⟨5⟩]⟩ =
      [⟨1, .photoArg [⟨5⟩]⟩, ⟨2, .anyArg⟩] := by
  decide

/-- In any registry walk whose category arm never produces observer-shaped
invocations, the observer invocations of the trace are exactly the
`AnyMux` routes, in registration order. -/
theorem anyTrace_walk (ms : List Muxer) (arm : Muxer → List Invocation)
    (harm : ∀ m, anyTrace (arm m) = []) :
    anyTrace (ms.flatMap (fun m => match m with
      | .AnyMux f => [Invocation.mk f .anyArg]
      | m' => arm m')) = anyRoutes ms := by
  induction ms with
  | nil => simp [anyTrace, anyRoutes]
  | cons m t ih =>
    rw [List.flatMap_cons, show ∀ x y, anyTrace (x ++ y) = anyTrace x ++ anyTrace y from
      fun x y => List.filterMap_append x y _, ih]
    cases m <;> simp only [harm] <;> simp [anyTrace, anyRoutes]

/-- Claim C1 as amended: every Observer route fires exactly once for every
event that reaches the registry walk, Observer invocations occur in
registration order, but observer and category invocations are interleaved
in a single pass over the registry — so with one Observer route and one
photo route, a photo event invokes each exactly once, the Observer first
if and only if it was registered first. -/
theorem spec_C1_amended :
    (∀ (bot : AwesomeBot) (msg : Message) (f : HandlerId),
      Muxer.AnyMux f ∈ bot.muxers →
      ((msg.msg = .DeleteChatPhoto ∨ msg.msg = .GroupChatCreated) →
        ∃ g, msg.chat = .Group g) →
      Invocation.mk f .anyArg ∈ handle_message bot msg) ∧
    (∀ (bot : AwesomeBot) (msg : Message),
      ((msg.msg = .DeleteChatPhoto ∨ msg.msg = .GroupChatCreated) →
        ∃ g, msg.chat = .Group g) →
      anyTrace (handle_message bot msg) = anyRoutes bot.muxers) ∧
    (∀ (a p : HandlerId) (i : Int) (u : Str) (msg : Message) (ps : List PhotoSize),
      handle_image_msg ⟨i, u, [.AnyMux a, .PhotoMux p]⟩ msg ps =
        [⟨a, .anyArg⟩, ⟨p, .photoArg ps⟩] ∧
      handle_image_msg ⟨i, u, [.PhotoMux p, .AnyMux a]⟩ msg ps =
        [⟨p, .photoArg ps⟩, ⟨a, .anyArg⟩]) := by
  refine ⟨?_, ?_, ?_⟩
  · intro bot msg f hmem hguard
    cases hm : msg.msg <;> simp only [handle_message, hm] <;>
      try exact any_mem_muxer_match hmem
    · obtain ⟨g, hg⟩ := hguard (Or.inl hm)
      rw [hg]
      exact any_mem_muxer_match hmem
    · obtain ⟨g, hg⟩ := hguard (Or.inr hm)
      rw [hg]
      exact any_mem_muxer_match hmem
  · intro bot msg hguard
    cases hm : msg.msg <;> simp only [handle_message, hm] <;>
      try exact anyTrace_walk bot.muxers _ (fun m => by
        cases m <;> (dsimp only; repeat' split) <;> rfl)
    · obtain ⟨g, hg⟩ := hguard (Or.inl hm)
      rw [hg]
      exact anyTrace_walk bot.muxers _ (fun m => by cases m <;> rfl)
    · obtain ⟨g, hg⟩ := hguard (Or.inr hm)
      rw [hg]
      exact anyTrace_walk bot.muxers _ (fun m => by cases m <;> rfl)
  · intro a p i u msg ps
    exact ⟨rfl, rfl⟩

/-- Witness for the amended C1: at a concrete bot and photo event, the
Observer is invoked, and the observer invocations of the whole dispatch
are exactly the registered observers in order. -/
theorem spec_C1_amended_witness :
    (Invocation.mk 2 .anyArg ∈
      handle_message ⟨0, str "u", [.PhotoMux 1, .AnyMux 2]⟩
        ⟨1, ⟨2⟩, 0, .UserChat ⟨2⟩, .Photo [⟨5⟩]⟩) ∧
    anyTrace (handle_message ⟨0, str "u", [.PhotoMux 1, .AnyMux 2]⟩
        ⟨1, ⟨2⟩, 0, .UserChat ⟨2⟩, .Photo [⟨5⟩]⟩) =
      anyRoutes [.PhotoMux 1, .AnyMux 2] :=
  ⟨spec_C1_amended.1 ⟨0, str "u", [.PhotoMux 1, .AnyMux 2]⟩
      ⟨1, ⟨2⟩, 0, .UserChat ⟨2⟩, .Photo [⟨5⟩]⟩ 2 (by decide)
      (fun h => by rcases h with h | h <;> simp at h),
    spec_C1_amended.2.1 ⟨0, str "u", [.PhotoMux 1, .AnyMux 2]⟩
      ⟨1, ⟨2⟩, 0, .UserChat ⟨2⟩, .Photo [⟨5⟩]⟩
      (fun h => by rcases h with h | h <;> simp at h)⟩

/-! ## String lemmas for the pattern-compiler claims -/

/-- A single-character suffix test ignores characters prepended in front of
a nonempty string. -/
theorem strEndsWith_dollar_cons {s : Str} (hs : s ≠ []) (c : Char) :
    strEndsWith (c :: s) (str "$") = strEndsWith s (str "$") := by
  have hd : str "$" = ['$'] := rfl
  obtain ⟨a, t, ht⟩ : ∃ a t, s.reverse = a :: t := by
    cases hr : s.reverse with
    | nil => exact absurd (by simpa using congrArg List.reverse hr) hs
    | cons a t => exact ⟨a, t, rfl⟩
  simp [strEndsWith, hd, List.reverse_cons, ht, List.isPrefixOf]

/-- Scanning from a nonempty accumulator: the first word returned starts
with the accumulated characters, and any further character of that word is
the next character of the input. -/
theorem splitWSAux_acc_shape (s : Str) :
    ∀ acc : Str, acc ≠ [] →
      ∃ w rest2, splitWSAux s acc = (acc.reverse ++ w) :: rest2 ∧
        (∀ c, w.head? = some c → s.head? = some c) := by
  induction s with
  | nil =>
    intro acc hacc
    refine ⟨[], [], ?_, by simp⟩
    simp [splitWSAux, List.isEmpty_iff, hacc]
  | cons c r ih =>
    intro acc hacc
    by_cases hws : c.isWhitespace
    · refine ⟨[], splitWSAux r [], ?_, by simp⟩
      simp [splitWSAux, hws, List.isEmpty_iff, hacc]
    · obtain ⟨w', rest2, heq, _⟩ := ih (c :: acc) (by simp)
      refine ⟨c :: w', rest2, ?_, by simp⟩
      simp only [splitWSAux, hws, if_false]
      rw [heq]
      simp

/-- `connectSp` of a nonempty word list starts with the first word. -/
theorem connectSp_cons (w : Str) (ws : List Str) :
    ∃ t, connectSp (w :: ws) = w ++ t := by
  cases ws with
  | nil => exact ⟨[], by simp [connectSp]⟩
  | cons w2 ws2 => exact ⟨' ' :: connectSp (w2 :: ws2), rfl⟩

/-- If the original shorthand starts with `^` but not `^/`, the joined
post-transform string also starts with `^` but not `^/`. -/
theorem mc_joined_of_caret (orig username : Str)
    (h1 : strStartsWith orig (str "^") = true)
    (h2 : strStartsWith orig (str "^/") = false) :
    ∃ z, mc_joined orig username = '^' :: z ∧ z.head? ≠ some '/' := by
  have hcar : str "^" = ['^'] := rfl
  have hcsl : str "^/" = ['^', '/'] := rfl
  obtain ⟨o', horig⟩ : ∃ o', orig = '^' :: o' := by
    cases orig with
    | nil => simp [strStartsWith, hcar, List.isPrefixOf] at h1
    | cons a o' =>
      refine ⟨o', ?_⟩
      simp only [strStartsWith, hcar, List.isPrefixOf, Bool.and_eq_true, beq_iff_eq] at h1
      rw [← h1.1]
  have ho' : ∀ c, o'.head? = some c → c ≠ '/' := by
    intro c hc hcontra
    subst hcontra
    cases o' with
    | nil => simp at hc
    | cons b t =>
      simp only [List.head?_cons, Option.some.injEq] at hc
      subst hc
      simp [horig, strStartsWith, hcsl, List.isPrefixOf] at h2
  -- compute the first word of splitWS orig
  obtain ⟨w, rest2, hsplit, hw⟩ := splitWSAux_acc_shape o' ['^'] (by simp)
  have hsplitWS : splitWS orig = ('^' :: w) :: rest2 := by
    have hnw : ('^' : Char).isWhitespace = false := by decide
    simp [splitWS, horig, splitWSAux, hnw]
    simpa using hsplit
  -- the rewritten first word keeps its first characters
  have hcomm2 : ∃ w2 : Str, (if strEndsWith ('^' :: w) (str "$") then ('^' :: w).dropLast
      else ('^' :: w)) = '^' :: w2 ∧ (∀ c, w2.head? = some c → w.head? = some c) := by
    by_cases hdol : strEndsWith ('^' :: w) (str "$")
    · cases w with
      | nil => exact absurd hdol (by decide)
      | cons b t =>
        refine ⟨(b :: t).dropLast, by simp [hdol], ?_⟩
        intro c hc
        cases t with
        | nil => simp at hc
        | cons b2 t2 => simpa using hc
    · exact ⟨w, by simp [hdol], fun c hc => hc⟩
  obtain ⟨w2, hw2, hw2h⟩ := hcomm2
  have hrw : mc_rewriteWords orig username =
      ((if strEndsWith ('^' :: w) (str "$") then ('^' :: w).dropLast else ('^' :: w)) ++
        ['(', '?', ':', '@'] ++ username ++ [')', '?'] ++
        (if strEndsWith ('^' :: w) (str "$") then str "$" else [])) :: rest2 := by
    unfold mc_rewriteWords
    rw [hsplitWS]
  rw [hw2] at hrw
  have hwords : ∃ tail, mc_joined orig username =
      ('^' :: w2 ++ ['(', '?', ':', '@'] ++ username ++ [')', '?']) ++ tail := by
    obtain ⟨t, hct⟩ := connectSp_cons
      (('^' :: w2) ++ ['(', '?', ':', '@'] ++ username ++ [')', '?'] ++
        (if strEndsWith ('^' :: w) (str "$") then str "$" else [])) rest2
    refine ⟨(if strEndsWith ('^' :: w) (str "$") then str "$" else []) ++ t, ?_⟩
    unfold mc_joined
    rw [hrw, hct]
    simp
  obtain ⟨tail, htail⟩ := hwords
  refine ⟨w2 ++ ['(', '?', ':', '@'] ++ username ++ [')', '?'] ++ tail, by simpa using htail, ?_⟩
  intro hcontra
  cases hz : w2 with
  | nil => simp [hz] at hcontra
  | cons d t2 =>
    rw [hz] at hcontra
    simp only [List.cons_append, List.head?_cons, Option.some.injEq] at hcontra
    have : w.head? = some '/' := hw2h '/' (by simp [hz, hcontra])
    have : o'.head? = some '/' := hw '/' this
    exact ho' '/' this rfl

/-- Claim C5: when the post-transform string does not start with `^/`,
`modify_command` inserts a leading `/` exactly when the post-transform
string lacks one, but inserts the leading `^` exactly when the **original**
shorthand lacks one; consequently an original shorthand beginning with `^`
but not `^/` yields a pattern that does not begin with `^`. -/
theorem spec_C5 :
    (∀ (orig username : Str),
      strStartsWith (mc_joined orig username) (str "^/") = false →
      modify_command orig username =
        (if strStartsWith orig (str "^") then [] else ['^']) ++
        (if strStartsWith (mc_joined orig username) (str "/") then [] else ['/']) ++
        mc_joined orig username ++
        (if strEndsWith (mc_joined orig username) (str "$") then [] else ['$'])) ∧
    (∀ (orig username : Str),
      strStartsWith orig (str "^") = true →
      strStartsWith orig (str "^/") = false →
      strStartsWith (modify_command orig username) (str "^") = false) := by
  constructor
  · intro orig username h
    by_cases hz : mc_joined orig username = []
    · by_cases hc : strStartsWith orig (str "^") <;>
        · simp only [modify_command, hz, h, hc, Bool.false_eq_true, if_false, if_true]
          decide
    · by_cases hs : strStartsWith (mc_joined orig username) (str "/") <;>
        by_cases hc : strStartsWith orig (str "^")
      · simp only [modify_command, h, hs, hc, Bool.false_eq_true, if_false, if_true]
        by_cases hd : strEndsWith (mc_joined orig username) (str "$") <;> simp [hd]
      · simp only [modify_command, h, hs, hc, Bool.false_eq_true, if_false, if_true]
        rw [strEndsWith_dollar_cons hz]
        by_cases hd : strEndsWith (mc_joined orig username) (str "$") <;> simp [hd]
      · simp only [modify_command, h, hs, hc, Bool.false_eq_true, if_false, if_true]
        rw [strEndsWith_dollar_cons hz]
        by_cases hd : strEndsWith (mc_joined orig username) (str "$") <;> simp [hd]
      · simp only [modify_command, h, hs, hc, Bool.false_eq_true, if_false, if_true]
        rw [strEndsWith_dollar_cons (List.cons_ne_nil '/' _),
          strEndsWith_dollar_cons hz]
        by_cases hd : strEndsWith (mc_joined orig username) (str "$") <;> simp [hd]
  · intro orig username h1 h2
    obtain ⟨z, hz, hzh⟩ := mc_joined_of_caret orig username h1 h2
    have hns : strStartsWith (mc_joined orig username) (str "^/") = false := by
      rw [hz]
      cases z with
      | nil => decide
      | cons d t =>
        have hd : d ≠ '/' := fun hh => hzh (by simp [hh])
        have hcsl : str "^/" = ['^', '/'] := rfl
        simp [strStartsWith, hcsl, List.isPrefixOf]
        intro h3
        exact absurd h3.symm hd
    have hslash : strStartsWith (mc_joined orig username) (str "/") = false := by
      rw [hz]
      have hsl : str "/" = ['/'] := rfl
      simp [strStartsWith, hsl, List.isPrefixOf]
    simp only [modify_command, hns, hslash, h1, Bool.false_eq_true, if_false, if_true]
    have hcar : str "^" = ['^'] := rfl
    by_cases hd : strEndsWith ('/' :: mc_joined orig username) (str "$") <;>
      simp [hd, strStartsWith, hcar, List.isPrefixOf]

/-- Witness for C5 at `orig = "^test"`, `username = "u"`: the post-transform
string is `^test(?:@u)?`; no `^` is inserted (the original starts with `^`),
a `/` is inserted, and the result `/^test(?:@u)?$` does not start with `^`. -/
theorem spec_C5_witness :
    (strStartsWith (mc_joined (str "^test") (str "u")) (str "^/") = false ∧
      modify_command (str "^test") (str "u") =
        (if strStartsWith (str "^test") (str "^") then [] else ['^']) ++
        (if strStartsWith (mc_joined (str "^test") (str "u")) (str "/") then [] else ['/']) ++
        mc_joined (str "^test") (str "u") ++
        (if strEndsWith (mc_joined (str "^test") (str "u")) (str "$") then [] else ['$'])) ∧
    strStartsWith (modify_command (str "^test") (str "u")) (str "^") = false :=
  ⟨⟨by decide, spec_C5.1 (str "^test") (str "u") (by decide)⟩,
    spec_C5.2 (str "^test") (str "u") (by decide) (by decide)⟩

/-! ## Lemmas for claim C4 (well-formed command words) -/

/-- An alphanumeric character is not regex syntax, whitespace, or any of
the characters `modify_command` treats specially. -/
theorem alphanum_not_special {a : Char} (h : a.isAlphanum = true) :
    a ≠ '(' ∧ a ≠ ')' ∧ a ≠ '|' ∧ a ≠ '?' ∧ a ≠ '*' ∧ a ≠ '+' ∧ a ≠ '.' ∧
      isBad a = false ∧ a.isWhitespace = false ∧ a ≠ '^' ∧ a ≠ '/' ∧ a ≠ '$' := by
  refine ⟨?_, ?_, ?_, ?_, ?_, ?_, ?_, ?_, ?_, ?_, ?_, ?_⟩
  any_goals intro heq; subst heq; exact absurd h (by decide)
  · by_contra hb
    rw [Bool.not_eq_false] at hb
    simp only [isBad, Bool.or_eq_true, beq_iff_eq] at hb
    rcases hb with ((((((h1 | h1) | h1) | h1) | h1) | h1) | h1) <;>
      subst h1 <;> exact absurd h (by decide)
  · by_contra hb
    rw [Bool.not_eq_false] at hb
    simp only [Char.isWhitespace, Bool.or_eq_true, decide_eq_true_eq] at hb
    rcases hb with ((h1 | h1) | h1) | h1 <;> subst h1 <;> exact absurd h (by decide)

/-- Scanning a whitespace-free suffix extends the current word to the end. -/
theorem splitWSAux_noWS :
    ∀ (s acc : Str), (∀ a ∈ s, a.isWhitespace = false) → acc ≠ [] →
      splitWSAux s acc = [acc.reverse ++ s] := by
  intro s
  induction s with
  | nil =>
    intro acc _ hacc
    simp [splitWSAux, List.isEmpty_iff, hacc]
  | cons a r ih =>
    intro acc hs hacc
    have ha : a.isWhitespace = false := hs a (by simp)
    rw [splitWSAux, if_neg (by simp [ha]), ih (a :: acc) (fun b hb => hs b (by simp [hb]))
      (by simp)]
    simp

/-- A nonempty whitespace-free string is a single word. -/
theorem splitWS_word (c : Str) (hc : c ≠ []) (hws : ∀ a ∈ c, a.isWhitespace = false) :
    splitWS c = [c] := by
  cases c with
  | nil => exact absurd rfl hc
  | cons a r =>
    have ha : a.isWhitespace = false := hws a (by simp)
    rw [splitWS, splitWSAux, if_neg (by simp [ha]),
      splitWSAux_noWS r [a] (fun b hb => hws b (by simp [hb])) (by simp)]
    simp

/-- The `$`-suffix test only looks at the last character. -/
theorem strEndsWith_dollar_concat (x : Str) (d : Char) :
    strEndsWith (x ++ [d]) (str "$") = ('$' == d) := by
  have hd : str "$" = ['$'] := rfl
  simp [strEndsWith, hd, List.isPrefixOf]

/-- A nonempty alphanumeric string does not end with `$`. -/
theorem endsWith_dollar_alphanum (c : Str) (hc : c ≠ [])
    (hca : ∀ a ∈ c, a.isAlphanum = true) : strEndsWith c (str "$") = false := by
  obtain ⟨d, t, ht⟩ : ∃ d t, c.reverse = d :: t := by
    cases hr : c.reverse with
    | nil => exact absurd (by simpa using congrArg List.reverse hr) hc
    | cons d t => exact ⟨d, t, rfl⟩
  have hdc : c = t.reverse ++ [d] := by
    have := congrArg List.reverse ht
    simpa using this
  rw [hdc, strEndsWith_dollar_concat]
  have hd : d.isAlphanum = true := hca d (by rw [hdc]; simp)
  have := (alphanum_not_special hd).2.2.2.2.2.2.2.2.2.2.2
  simp [beq_eq_false_iff_ne]
  exact fun hh => this hh.symm

/-- `modify_command` on a well-formed (nonempty, alphanumeric) command
word: the exact anchored pattern string, in head-normal list form. -/
theorem mc_on_wf (c u : Str) (hc : c ≠ []) (hca : ∀ a ∈ c, a.isAlphanum = true) :
    modify_command c u =
      '^' :: '/' :: (c ++ '(' :: '?' :: ':' :: '@' :: (u ++ [')', '?', '$'])) := by
  obtain ⟨a, r, har⟩ : ∃ a r, c = a :: r := by
    cases c with
    | nil => exact absurd rfl hc
    | cons a r => exact ⟨a, r, rfl⟩
  have ha : a.isAlphanum = true := hca a (by rw [har]; simp)
  have hsplit : splitWS c = [c] :=
    splitWS_word c hc (fun b hb => (alphanum_not_special (hca b hb)).2.2.2.2.2.2.2.2.1)
  have hdol : strEndsWith c (str "$") = false := endsWith_dollar_alphanum c hc hca
  have hrw : mc_rewriteWords c u = [c ++ ['(', '?', ':', '@'] ++ u ++ [')', '?']] := by
    rw [mc_rewriteWords, hsplit]
    simp [hdol]
  have hj : mc_joined c u = c ++ '(' :: '?' :: ':' :: '@' :: (u ++ [')', '?']) := by
    rw [mc_joined, hrw, connectSp]
    simp
  have hns1 : strStartsWith (mc_joined c u) (str "^/") = false := by
    rw [hj, har]
    have := (alphanum_not_special ha).2.2.2.2.2.2.2.2.2.1
    have hcar : str "^/" = ['^', '/'] := rfl
    simp [strStartsWith, hcar, List.isPrefixOf]
    intro hh
    exact absurd hh.symm this
  have hns2 : strStartsWith (mc_joined c u) (str "/") = false := by
    rw [hj, har]
    have := (alphanum_not_special ha).2.2.2.2.2.2.2.2.2.2.1
    have hsl : str "/" = ['/'] := rfl
    simp [strStartsWith, hsl, List.isPrefixOf]
    exact fun hh => absurd hh.symm this
  have hns3 : strStartsWith c (str "^") = false := by
    rw [har]
    have := (alphanum_not_special ha).2.2.2.2.2.2.2.2.2.1
    have hcar : str "^" = ['^'] := rfl
    simp [strStartsWith, hcar, List.isPrefixOf]
    exact fun hh => absurd hh.symm this
  have hform : '/' :: (c ++ '(' :: '?' :: ':' :: '@' :: (u ++ [')', '?'])) =
      ('/' :: (c ++ '(' :: '?' :: ':' :: '@' :: (u ++ [')']))) ++ ['?'] := by
    simp
  have hns4 : strEndsWith ('/' :: (c ++ '(' :: '?' :: ':' :: '@' :: (u ++ [')', '?'])))
      (str "$") = false := by
    rw [hform, strEndsWith_dollar_concat]
    decide
  have hend : strEndsWith ('^' :: '/' :: (c ++ '(' :: '?' :: ':' :: '@' :: (u ++ [')', '?'])))
      (str "$") = false := by
    rw [show ('^' :: '/' :: (c ++ '(' :: '?' :: ':' :: '@' :: (u ++ [')', '?']))) =
      ('^' :: '/' :: (c ++ '(' :: '?' :: ':' :: '@' :: (u ++ [')']))) ++ ['?'] by simp,
      strEndsWith_dollar_concat]
    decide
  rw [hj] at hns1 hns2
  simp only [modify_command, hj, hns1, hns2, hns3, Bool.false_eq_true, if_false, hend]
  simp

/-- The parser consumes an ordinary (non-syntax) character as a literal. -/
theorem parseLoop_ord (a : Char) (h1 : a ≠ '(') (h2 : a ≠ ')') (h3 : a ≠ '|')
    (h4 : a ≠ '?') (h5 : a ≠ '*') (h6 : a ≠ '+') (h7 : a ≠ '.') (h8 : isBad a = false)
    (rest : Str) (st : List Frame) (alts seq : List RE) (g : Nat) :
    parseLoop (a :: rest) st alts seq g = parseLoop rest st alts (RE.chr a :: seq) g := by
  rw [parseLoop.eq_def]
  split <;> simp_all

/-- The parser consumes a whole alphanumeric word as literals. -/
theorem parseLoop_word (w : Str) (hw : ∀ a ∈ w, a.isAlphanum = true) :
    ∀ (rest : Str) (st : List Frame) (alts seq : List RE) (g : Nat),
      parseLoop (w ++ rest) st alts seq g =
        parseLoop rest st alts ((w.map RE.chr).reverse ++ seq) g := by
  induction w with
  | nil => intro rest st alts seq g; simp
  | cons a w2 ih =>
    intro rest st alts seq g
    obtain ⟨n1, n2, n3, n4, n5, n6, n7, n8, -⟩ := alphanum_not_special (hw a (by simp))
    rw [List.cons_append, parseLoop_ord a n1 n2 n3 n4 n5 n6 n7 n8,
      ih (fun b hb => hw b (by simp [hb]))]
    simp

/-- Opening a non-capturing group. -/
theorem parseLoop_ncgroup (rest : Str) (st : List Frame) (alts seq : List RE) (g : Nat) :
    parseLoop ('(' :: '?' :: ':' :: rest) st alts seq g =
      parseLoop rest ((none, alts, seq) :: st) [] [] g := rfl

/-- Closing a non-capturing group. -/
theorem parseLoop_close (rest : Str) (salts sseq : List RE) (st : List Frame)
    (alts seq : List RE) (g : Nat) :
    parseLoop (')' :: rest) ((none, salts, sseq) :: st) alts seq g =
      parseLoop rest st salts (altRE alts (seqRE seq) :: sseq) g := rfl

/-- The `?` postfix wraps the preceding atom in an option. -/
theorem parseLoop_opt (rest : Str) (st : List Frame) (alts : List RE) (r : RE)
    (seq : List RE) (g : Nat) :
    parseLoop ('?' :: rest) st alts (r :: seq) g =
      parseLoop rest st alts (RE.alt r RE.eps :: seq) g := rfl

/-- End of pattern with no group left open. -/
theorem parseLoop_done (alts seq : List RE) (g : Nat) :
    parseLoop [] [] alts seq g = some (altRE alts (seqRE seq), g) := rfl

/-- `Regex::new` on the pattern `modify_command` produces for a well-formed
command word and username: both anchors are set, there are no capture
groups, and the regex is the literal `/c` followed by an optional literal
`@u`. -/
theorem regexNew_wf (c u : Str) (hc : c ≠ []) (hca : ∀ a ∈ c, a.isAlphanum = true)
    (hua : ∀ a ∈ u, a.isAlphanum = true) :
    Regex.new (modify_command c u) =
      some ⟨true, true,
        ((RE.chr '/' :: c.map RE.chr) ++
          [RE.alt ((RE.chr '@' :: u.map RE.chr).foldr RE.cat RE.eps) RE.eps]).foldr
          RE.cat RE.eps, 0⟩ := by
  rw [mc_on_wf c u hc hca]
  have hbody : '/' :: (c ++ '(' :: '?' :: ':' :: '@' :: (u ++ [')', '?', '$'])) =
      ('/' :: (c ++ '(' :: '?' :: ':' :: '@' :: (u ++ [')', '?']))) ++ ['$'] := by
    simp
  rw [Regex.new]
  simp only [hbody, strEndsWith_dollar_concat, List.dropLast_concat, beq_self_eq_true,
    if_true]
  rw [parseLoop_ord '/' (by decide) (by decide) (by decide) (by decide) (by decide)
      (by decide) (by decide) (by decide),
    parseLoop_word c hca, parseLoop_ncgroup,
    parseLoop_ord '@' (by decide) (by decide) (by decide) (by decide) (by decide)
      (by decide) (by decide) (by decide),
    parseLoop_word u hua, parseLoop_close, parseLoop_opt, parseLoop_done]
  simp [altRE, seqRE]

/-- Running a literal word: the word must be the next prefix, and matching
it consumes exactly its length. -/
theorem runFrom_foldr_chr (s : Str) (w : Str) (rs : List RE) :
    ∀ i : Nat,
      runFrom s ((w.map RE.chr ++ rs).foldr RE.cat RE.eps) i =
        if w.isPrefixOf (s.drop i) then runFrom s (rs.foldr RE.cat RE.eps) (i + w.length)
        else [] := by
  induction w with
  | nil => intro i; simp [List.isPrefixOf]
  | cons a w2 ih =>
    intro i
    rw [List.map_cons, List.cons_append, List.foldr_cons]
    rw [show runFrom s (RE.cat (RE.chr a) ((w2.map RE.chr ++ rs).foldr RE.cat RE.eps)) i =
      (runFrom s (RE.chr a) i).flatMap
        (fun jc => (runFrom s ((w2.map RE.chr ++ rs).foldr RE.cat RE.eps) jc.1).map
          (fun kc => (kc.1, kc.2 ++ jc.2))) from rfl]
    cases hsi : s[i]? with
    | none =>
      have hdrop : s.drop i = [] :=
        List.drop_eq_nil_of_le (List.getElem?_eq_none_iff.mp hsi)
      simp [runFrom, hsi, hdrop, List.isPrefixOf]
    | some b =>
      have hlt : i < s.length := by
        by_contra hge
        rw [List.getElem?_eq_none_iff.mpr (by omega)] at hsi
        exact Option.noConfusion hsi
      have hdrop : s.drop i = b :: s.drop (i + 1) := by
        rw [List.drop_eq_getElem_cons hlt]
        obtain ⟨h1, h2⟩ := List.getElem?_eq_some_iff.mp hsi
        rw [h2]
      by_cases hab : b = a
      · subst hab
        rw [show runFrom s (RE.chr b) i = [(i + 1, [])] by simp [runFrom, hsi]]
        rw [hdrop]
        simp only [List.flatMap_cons, List.flatMap_nil, List.append_nil, List.isPrefixOf,
          beq_self_eq_true, Bool.true_and, ih (i + 1), List.length_cons]
        rw [show i + (w2.length + 1) = i + 1 + w2.length by omega]
        by_cases hpre : w2.isPrefixOf (s.drop (i + 1)) <;> simp [hpre]
      · rw [show runFrom s (RE.chr a) i = [] by
          simp [runFrom, hsi]
          exact fun hh => absurd hh hab]
        rw [hdrop]
        have hne : (a == b) = false := beq_eq_false_iff_ne.mpr (fun hh => hab hh.symm)
        simp [List.isPrefixOf, hne]

/-- `is_match` of a doubly-anchored pattern: some run from position 0 ends
exactly at the end of the string. -/
theorem ismatch_anch (re : RE) (n : Nat) (s : Str) :
    Pat.is_match ⟨true, true, re, n⟩ s =
      ((runFrom s re 0).find? (fun jc => jc.1 == s.length)).isSome := by
  have harg : (fun (jc : Nat × Caps) => !(⟨true, true, re, n⟩ : Pat).anchorEnd ||
      jc.1 == s.length) = (fun jc => jc.1 == s.length) := by
    funext jc
    simp
  rw [Pat.is_match, Pat.captures, execSearch]
  simp only [if_true]
  rw [execAt]
  simp only [harg]
  cases hfind : (runFrom s re 0).find? (fun jc => jc.1 == s.length) with
  | none => simp
  | some v => simp

/-- Trailing `eps` in a concatenation is inert. -/
theorem runFrom_cat_eps (s : Str) (x : RE) (i : Nat) :
    runFrom s (RE.cat x RE.eps) i = runFrom s x i := by
  rw [show runFrom s (RE.cat x RE.eps) i = (runFrom s x i).flatMap
    (fun jc => (runFrom s RE.eps jc.1).map (fun kc => (kc.1, kc.2 ++ jc.2))) from rfl]
  generalize runFrom s x i = l
  induction l with
  | nil => rfl
  | cons jc t ih => simp_all [runFrom]

/-- Alternation in a run: left branch first. -/
theorem runFrom_alt (s : Str) (a b : RE) (i : Nat) :
    runFrom s (RE.alt a b) i = runFrom s a i ++ runFrom s b i := rfl

/-- The empty regex consumes nothing. -/
theorem runFrom_eps (s : Str) (i : Nat) : runFrom s RE.eps i = [(i, [])] := rfl

/-- All runs of the compiled well-formed command pattern from position 0:
either the literal `/c` followed by `@u` (consuming everything up to
`|/c@u|`), or just the literal `/c`. -/
theorem runFrom_wf (c u s : Str) :
    runFrom s (((RE.chr '/' :: c.map RE.chr) ++
        [RE.alt ((RE.chr '@' :: u.map RE.chr).foldr RE.cat RE.eps) RE.eps]).foldr
        RE.cat RE.eps) 0 =
      if ('/' :: c).isPrefixOf s then
        (if ('@' :: u).isPrefixOf (s.drop (c.length + 1)) then
          [(c.length + 1 + (u.length + 1), ([] : Caps))] else []) ++
          [(c.length + 1, ([] : Caps))]
      else [] := by
  rw [show (RE.chr '/' :: c.map RE.chr) = ('/' :: c).map RE.chr by simp,
    runFrom_foldr_chr s ('/' :: c) _ 0, List.drop_zero]
  by_cases hpre : ('/' :: c).isPrefixOf s
  · simp only [hpre, if_true, List.length_cons, Nat.zero_add]
    rw [show [RE.alt ((RE.chr '@' :: u.map RE.chr).foldr RE.cat RE.eps) RE.eps].foldr
        RE.cat RE.eps =
      RE.cat (RE.alt ((RE.chr '@' :: u.map RE.chr).foldr RE.cat RE.eps) RE.eps) RE.eps
      from rfl,
      runFrom_cat_eps, runFrom_alt, runFrom_eps]
    rw [show (RE.chr '@' :: u.map RE.chr).foldr RE.cat RE.eps =
      ((('@' :: u).map RE.chr) ++ []).foldr RE.cat RE.eps by simp,
      runFrom_foldr_chr s ('@' :: u) []]
    by_cases hat : ('@' :: u).isPrefixOf (s.drop (c.length + 1)) <;>
      simp [hat, runFrom_eps, Nat.add_assoc]
  · simp [hpre]

/-- Every list is a prefix of itself (Boolean form). -/
theorem isPrefixOf_self (l : Str) : l.isPrefixOf l = true := by
  rw [List.isPrefixOf_iff_prefix]

/-- A list is a prefix of itself followed by anything (Boolean form). -/
theorem isPrefixOf_append_self (l t : Str) : l.isPrefixOf (l ++ t) = true := by
  rw [List.isPrefixOf_iff_prefix]
  exact List.prefix_append l t

/-- Claim C4: for every well-formed (nonempty alphanumeric) command word
`c` and username `u`, the compiled pattern is anchored at both ends, and
its matcher accepts `/c` and `/c@u` while rejecting `/cx` and `x/c`. -/
theorem spec_C4 :
    ∀ (c u : Str), c ≠ [] → (∀ a ∈ c, a.isAlphanum = true) →
      u ≠ [] → (∀ a ∈ u, a.isAlphanum = true) →
      strStartsWith (modify_command c u) (str "^") = true ∧
      strEndsWith (modify_command c u) (str "$") = true ∧
      ∃ p, Regex.new (modify_command c u) = some p ∧
        p.is_match ('/' :: c) = true ∧
        p.is_match ('/' :: (c ++ '@' :: u)) = true ∧
        p.is_match ('/' :: (c ++ ['x'])) = false ∧
        p.is_match ('x' :: '/' :: c) = false := by
  intro c u hc hca hu hua
  have hmc := mc_on_wf c u hc hca
  refine ⟨?_, ?_, ?_⟩
  · rw [hmc]
    have hcar : str "^" = ['^'] := rfl
    simp [strStartsWith, hcar, List.isPrefixOf]
  · rw [hmc, show ('^' :: '/' :: (c ++ '(' :: '?' :: ':' :: '@' :: (u ++ [')', '?', '$']))) =
      ('^' :: '/' :: (c ++ '(' :: '?' :: ':' :: '@' :: (u ++ [')', '?']))) ++ ['$'] by simp,
      strEndsWith_dollar_concat]
    decide
  · refine ⟨_, regexNew_wf c u hc hca hua, ?_, ?_, ?_, ?_⟩ <;>
      rw [ismatch_anch, runFrom_wf]
    · rw [show (('/' :: c).drop (c.length + 1)) = [] from List.drop_eq_nil_of_le (by simp)]
      simp [isPrefixOf_self, List.isPrefixOf, List.find?]
    · rw [show (('/' :: (c ++ '@' :: u)).drop (c.length + 1)) = '@' :: u
        from by simp [List.drop_succ_cons, List.drop_left]]
      simp [isPrefixOf_self, isPrefixOf_append_self, List.isPrefixOf, List.find?]
      rw [show (c.length + 1 + (u.length + 1) == c.length + (u.length + 1) + 1) = true
        from by simp; try omega]
      simp
    · rw [show (('/' :: (c ++ ['x'])).drop (c.length + 1)) = ['x']
        from by simp [List.drop_succ_cons, List.drop_left]]
      have hlen : (c.length + 1 == ('/' :: (c ++ ['x'])).length) = false := by
        simp [beq_eq_false_iff_ne]
      simp [isPrefixOf_append_self, List.isPrefixOf, List.find?, hlen]
    · simp [List.isPrefixOf, List.find?]

/-- Witness for C4 at the repository's own test inputs `c = "test"`,
`u = "usernamebot"`. -/
theorem spec_C4_witness :
    strStartsWith (modify_command (str "test") (str "usernamebot")) (str "^") = true ∧
    strEndsWith (modify_command (str "test") (str "usernamebot")) (str "$") = true ∧
    ∃ p, Regex.new (modify_command (str "test") (str "usernamebot")) = some p ∧
      p.is_match ('/' :: str "test") = true ∧
      p.is_match ('/' :: (str "test" ++ '@' :: str "usernamebot")) = true ∧
      p.is_match ('/' :: (str "test" ++ ['x'])) = false ∧
      p.is_match ('x' :: '/' :: str "test") = false :=
  spec_C4 (str "test") (str "usernamebot") (by decide) (by decide) (by decide) (by decide)
